import Mathlib

/-!
Verification of the `install_externref` string-marshalling shim
(`src/src/c_bridge.c` and `src/src/web/c_bridge.c`).

The C entry point queries a host string's length, copies up to 255 code
units (each truncated to its low 8 bits by the `(char)` cast) into a
256-byte stack buffer, writes a NUL terminator, and hands the buffer and
its data length to the external sink `zig_install_externref`.

The embedding makes the host environment explicit: a `Host` supplies the
two imported capabilities (`js_string_length`, `js_string_charCodeAt`),
and `install_externref` returns an `ExecTrace` recording, in order, the
indices passed to the char-at query, the stores into the local buffer
(index and byte value), and the sink invocations (buffer bytes handed
over, i.e. the written region `[0, copy_length]`, and the length
argument).  C `int` values are modelled as `Int`; the `(char)` cast is
the low-8-bits truncation `lowByte`.
-/

namespace Star

/-- The low 8 bits of a code-unit value, as stored by the C cast
`(char)js_string_charCodeAt(...)` (bit pattern of the byte). -/
def lowByte (v : Int) : Nat := (v % 256).toNat

/-- The host environment: the two imported capabilities of
`wasm:js-string` used by the shim. -/
structure Host where
  js_string_length : Int
  js_string_charCodeAt : Int → Int

/-- Observable execution trace of one call to the entry point. -/
@[ext]
structure ExecTrace where
  queries : List Int
  stores : List (Int × Nat)
  sink : List (List Nat × Int)
deriving DecidableEq, Repr

/-- Shallow embedding of `install_externref` from `src/src/c_bridge.c`
(lines 10–23): query the length, compute
`copy_length = url_length < 255 ? url_length : 255`, copy the low byte of
each of the first `copy_length` code units, NUL-terminate, call the sink
once with the buffer and `copy_length`. -/
def install_externref (h : Host) : ExecTrace :=
  let url_length := h.js_string_length
  let copy_length := if url_length < 255 then url_length else 255
  let idxs := List.range copy_length.toNat
  let url_bytes := idxs.map (fun (i : Nat) => lowByte (h.js_string_charCodeAt ((i : Int))))
  { queries := idxs.map (fun (i : Nat) => (i : Int))
  , stores := (idxs.map (fun (i : Nat) =>
      ((i : Int), lowByte (h.js_string_charCodeAt ((i : Int)))))) ++
      [(copy_length, 0)]
  , sink := [(url_bytes ++ [0], copy_length)] }

/-- `copy_length` as computed at line 15 of the source. -/
def copy_length (h : Host) : Int :=
  if h.js_string_length < 255 then h.js_string_length else 255

/-- The buffer region handed to the sink: bytes `[0, copy_length]`. -/
def sinkBuffer (h : Host) : List Nat :=
  ((install_externref h).sink.headD ([], 0)).1

/-- The length argument handed to the sink. -/
def sinkLength (h : Host) : Int :=
  ((install_externref h).sink.headD ([], 0)).2

/-- A genuine host string: a sequence of 16-bit code units, inducing a
host whose length query returns the sequence length and whose char-at
query returns the unit at the queried index. -/
def hostOfString (units : List Int) : Host :=
  { js_string_length := units.length
  , js_string_charCodeAt := fun i => units.getD i.toNat 0 }

end Star

namespace Web

/-- Shallow embedding of `install_externref` from the duplicate copy
`src/src/web/c_bridge.c` (lines 9–22), embedded separately and verbatim
from that file. -/
def install_externref (h : Star.Host) : Star.ExecTrace :=
  let url_length := h.js_string_length
  let copy_length := if url_length < 255 then url_length else 255
  let idxs := List.range copy_length.toNat
  let url_bytes := idxs.map (fun (i : Nat) => Star.lowByte (h.js_string_charCodeAt ((i : Int))))
  { queries := idxs.map (fun (i : Nat) => (i : Int))
  , stores := (idxs.map (fun (i : Nat) =>
      ((i : Int), Star.lowByte (h.js_string_charCodeAt ((i : Int)))))) ++
      [(copy_length, 0)]
  , sink := [(url_bytes ++ [0], copy_length)] }

end Web

namespace Star

/-- C8: The two source copies of `install_externref` are behaviorally
equivalent: on every host environment they produce identical traces —
same char-at queries in the same order, same buffer stores, same sink
calls. -/
theorem install_externref_copies_equivalent (h : Host) :
    Web.install_externref h = install_externref h := rfl

/-! ### Helper lemmas shared by the claim theorems -/

theorem copy_length_le (h : Host) : copy_length h ≤ 255 := by
  unfold copy_length; split <;> omega

theorem copy_length_nonneg (h : Host) (hnn : 0 ≤ h.js_string_length) :
    0 ≤ copy_length h := by
  unfold copy_length; split <;> omega

theorem copy_length_le_len (h : Host) :
    copy_length h ≤ h.js_string_length := by
  unfold copy_length; split <;> omega

theorem sink_eq (h : Host) :
    (install_externref h).sink = [(sinkBuffer h, copy_length h)] := rfl

theorem sinkBuffer_eq (h : Host) :
    sinkBuffer h = (List.range (copy_length h).toNat).map
      (fun (i : Nat) => lowByte (h.js_string_charCodeAt ((i : Int)))) ++ [0] := rfl

theorem sinkLength_eq (h : Host) : sinkLength h = copy_length h := rfl

theorem queries_eq (h : Host) :
    (install_externref h).queries =
      (List.range (copy_length h).toNat).map (fun (i : Nat) => (i : Int)) := rfl

theorem stores_eq (h : Host) :
    (install_externref h).stores =
      ((List.range (copy_length h).toNat).map (fun (i : Nat) =>
        ((i : Int), lowByte (h.js_string_charCodeAt ((i : Int)))))) ++
      [(copy_length h, 0)] := rfl

/-! ### Claim theorems -/

/-- C1: for a host string whose length query returns `L ≥ 0`: if
`L ≤ 255` the sink length is `L` and each buffer byte `i < L` is the low
8 bits of the code unit at `i`; if `L > 255` the sink length is 255 and
every char-at query index is below 255; for `L = 0` the buffer is just
the terminator and the sink length is 0. -/
theorem install_externref_bounded_copy (h : Host) (L : Int)
    (hlen : h.js_string_length = L) (hnn : 0 ≤ L) :
    (L ≤ 255 →
      sinkLength h = L ∧
      ∀ i : Nat, (i : Int) < L →
        (sinkBuffer h)[i]? = some (lowByte (h.js_string_charCodeAt ((i : Int))))) ∧
    (255 < L →
      sinkLength h = 255 ∧ ∀ q ∈ (install_externref h).queries, q < 255) ∧
    (L = 0 → sinkBuffer h = [0] ∧ sinkLength h = 0) := by
  subst hlen
  refine ⟨?_, ?_, ?_⟩
  · intro hle
    have hcl : copy_length h = h.js_string_length := by
      unfold copy_length; split <;> omega
    refine ⟨by rw [sinkLength_eq, hcl], ?_⟩
    intro i hi
    have hi2 : i < (copy_length h).toNat := by omega
    rw [sinkBuffer_eq]
    have hl : i < ((List.range (copy_length h).toNat).map
        (fun (j : Nat) => lowByte (h.js_string_charCodeAt (j : Int)))).length := by
      simpa using hi2
    rw [List.getElem?_append_left hl, List.getElem?_map, List.getElem?_range hi2]
    rfl
  · intro hgt
    have hcl : copy_length h = 255 := by
      unfold copy_length; split <;> omega
    refine ⟨by rw [sinkLength_eq, hcl], ?_⟩
    intro q hq
    rw [queries_eq] at hq
    simp only [List.mem_map, List.mem_range] at hq
    obtain ⟨i, hi, rfl⟩ := hq
    rw [hcl] at hi
    omega
  · intro h0
    have hcl : copy_length h = 0 := by
      unfold copy_length; split <;> omega
    exact ⟨by rw [sinkBuffer_eq, hcl]; simp, by rw [sinkLength_eq, hcl]⟩

/-- C1 witness at the "hi!" string `[0x68, 0x69, 0x21]`. -/
theorem install_externref_bounded_copy_witness :
    sinkLength (hostOfString [104, 105, 33]) = 3 ∧
    (sinkBuffer (hostOfString [104, 105, 33]))[1]? =
      some (lowByte ((hostOfString [104, 105, 33]).js_string_charCodeAt ((1 : Nat) : Int))) := by
  have h3 := install_externref_bounded_copy (hostOfString [104, 105, 33]) 3
    (by decide) (by decide)
  exact ⟨(h3.1 (by decide)).1, (h3.1 (by decide)).2 1 (by decide)⟩

/-- C2: every index passed to the char-at query lies in
`[0, total_length)`, and every store into the local buffer targets an
index at most 255. -/
theorem install_externref_safe_accesses (h : Host) :
    (∀ q ∈ (install_externref h).queries, 0 ≤ q ∧ q < h.js_string_length) ∧
    (∀ p ∈ (install_externref h).stores, p.1 ≤ 255) := by
  constructor
  · intro q hq
    rw [queries_eq] at hq
    simp only [List.mem_map, List.mem_range] at hq
    obtain ⟨i, hi, rfl⟩ := hq
    have hlen := copy_length_le_len h
    constructor
    · omega
    · omega
  · intro p hp
    rw [stores_eq] at hp
    simp only [List.mem_append, List.mem_map, List.mem_range,
      List.mem_singleton] at hp
    have h255 := copy_length_le h
    rcases hp with ⟨i, hi, rfl⟩ | rfl
    · simp only
      omega
    · simpa using h255

/-- C2 witness: both access bounds applied at the one-character string
`[0x41]`, at the query index 0 and at the store `(1, 0)`. -/
theorem install_externref_safe_accesses_witness :
    (0 ≤ (0 : Int) ∧ (0 : Int) < (hostOfString [65]).js_string_length) ∧
    ((1 : Int), (0 : Nat)).1 ≤ 255 :=
  ⟨(install_externref_safe_accesses (hostOfString [65])).1 0 (by decide),
   (install_externref_safe_accesses (hostOfString [65])).2 ((1 : Int), (0 : Nat)) (by decide)⟩

/-- C3: the sink is invoked exactly once per call, with
`byte_count = min(total_length, 255)`. -/
theorem install_externref_sink_once (h : Host) :
    (install_externref h).sink.length = 1 ∧
    (install_externref h).sink = [(sinkBuffer h, min h.js_string_length 255)] := by
  refine ⟨rfl, ?_⟩
  rw [sink_eq]
  have hmin : copy_length h = min h.js_string_length 255 := by
    unfold copy_length
    rcases lt_or_ge h.js_string_length 255 with hlt | hge
    · rw [if_pos hlt, min_eq_left (le_of_lt hlt)]
    · rw [if_neg (not_lt.mpr hge), min_eq_right hge]
  rw [hmin]

/-- C4: for a genuine host string (nonnegative length), the byte at
index `length` of the buffer handed to the sink is `0x00`, and
`0 ≤ length ≤ 255`. -/
theorem install_externref_nul_terminated (h : Host)
    (hnn : 0 ≤ h.js_string_length) :
    (sinkBuffer h)[(sinkLength h).toNat]? = some 0 ∧
    0 ≤ sinkLength h ∧ sinkLength h ≤ 255 := by
  refine ⟨?_, ?_, ?_⟩
  · rw [sinkBuffer_eq, sinkLength_eq]
    have hl : ((List.range (copy_length h).toNat).map
        (fun (j : Nat) => lowByte (h.js_string_charCodeAt (j : Int)))).length ≤
        (copy_length h).toNat := by
      simp
    rw [List.getElem?_append_right hl]
    simp
  · rw [sinkLength_eq]; exact copy_length_nonneg h hnn
  · rw [sinkLength_eq]; exact copy_length_le h

/-- C4 witness at the empty string. -/
theorem install_externref_nul_terminated_witness :
    (sinkBuffer (hostOfString []))[(sinkLength (hostOfString [])).toNat]? = some 0 ∧
    0 ≤ sinkLength (hostOfString []) ∧ sinkLength (hostOfString []) ≤ 255 :=
  install_externref_nul_terminated (hostOfString []) (by decide)

/-- C5: the byte stored at each copied position is the code-unit value
reduced mod 2^8 — code units at or above `0x100` silently lose their
high bits. -/
theorem install_externref_truncates_low8 (h : Host) (i : Nat)
    (hi : i < (copy_length h).toNat) :
    (sinkBuffer h)[i]? = some ((h.js_string_charCodeAt ((i : Int)) % 256).toNat) := by
  rw [sinkBuffer_eq]
  have hl : i < ((List.range (copy_length h).toNat).map
      (fun (j : Nat) => lowByte (h.js_string_charCodeAt (j : Int)))).length := by
    simpa using hi
  rw [List.getElem?_append_left hl, List.getElem?_map, List.getElem?_range hi]
  rfl

/-- C5 witness: the single code unit `0x1F4E6` yields the byte `0xE6`. -/
theorem install_externref_truncates_low8_witness :
    (sinkBuffer (hostOfString [128230]))[0]? = some 230 := by
  have ht := install_externref_truncates_low8 (hostOfString [128230]) 0 (by decide)
  exact ht.trans (by decide)

/-- C6: no error is signaled anywhere: an oversized input
(`total_length > 255`) only truncates silently — the sink is still
invoked, exactly once, with length 255 and the first 255 truncated
bytes. -/
theorem install_externref_silent_truncation (h : Host)
    (hover : 255 < h.js_string_length) :
    (install_externref h).sink.length = 1 ∧
    sinkLength h = 255 ∧
    sinkBuffer h = (List.range 255).map
      (fun (i : Nat) => lowByte (h.js_string_charCodeAt ((i : Int)))) ++ [0] := by
  have hcl : copy_length h = 255 := by
    unfold copy_length; split <;> omega
  refine ⟨rfl, by rw [sinkLength_eq, hcl], ?_⟩
  rw [sinkBuffer_eq, hcl]
  simp

set_option maxRecDepth 10000 in
/-- C6 witness at a 256-code-unit string. -/
theorem install_externref_silent_truncation_witness :
    (install_externref (hostOfString (List.replicate 256 65))).sink.length = 1 ∧
    sinkLength (hostOfString (List.replicate 256 65)) = 255 ∧
    sinkBuffer (hostOfString (List.replicate 256 65)) =
      (List.range 255).map (fun (i : Nat) =>
        lowByte ((hostOfString (List.replicate 256 65)).js_string_charCodeAt
          ((i : Int)))) ++ [0] :=
  install_externref_silent_truncation (hostOfString (List.replicate 256 65))
    (by decide)

/-- The length-300 example input: 300 code units, all `0x41`. -/
def host300 : Host := hostOfString (List.replicate 300 65)

set_option maxRecDepth 10000 in
/-- C7: on a length-300 all-`0x41` string the buffer is 255 bytes of
`0x41` plus the terminator, the sink length is 255, and the char-at
query is made exactly 255 times, every queried index below 255. -/
theorem install_externref_len300_example :
    sinkBuffer host300 = List.replicate 255 65 ++ [0] ∧
    sinkLength host300 = 255 ∧
    (install_externref host300).queries.length = 255 ∧
    ∀ q ∈ (install_externref host300).queries, 0 ≤ q ∧ q < 255 := by decide

/-- C9: with a nonnegative host length every buffer store hits an index
in `[0, 255]`; with a negative host length the copy loop runs zero times
and the only store — the terminator — targets the negative index
`js_string_length` itself, out of bounds. -/
theorem install_externref_store_bounds_precondition :
    (∀ h : Host, 0 ≤ h.js_string_length →
      ∀ p ∈ (install_externref h).stores, 0 ≤ p.1 ∧ p.1 ≤ 255) ∧
    (∀ h : Host, h.js_string_length < 0 →
      (install_externref h).queries = [] ∧
      (install_externref h).stores = [(h.js_string_length, 0)]) := by
  constructor
  · intro h hnn p hp
    rw [stores_eq] at hp
    simp only [List.mem_append, List.mem_map, List.mem_range,
      List.mem_singleton] at hp
    have h255 := copy_length_le h
    have h0 := copy_length_nonneg h hnn
    rcases hp with ⟨i, hi, rfl⟩ | rfl
    · simp only
      omega
    · simp only
      omega
  · intro h hneg
    have hcl : copy_length h = h.js_string_length := by
      unfold copy_length; split <;> omega
    have hton : (copy_length h).toNat = 0 := by omega
    refine ⟨?_, ?_⟩
    · rw [queries_eq, hton]; rfl
    · rw [stores_eq, hton, hcl]; rfl

/-- A hostile host whose length query returns a negative value. -/
def hostNeg : Host :=
  { js_string_length := -7, js_string_charCodeAt := fun _ => 0 }

/-- C9 witness: in-bounds store for `[0x41]`; zero queries and the
negative-index terminator store for a host reporting length `-7`. -/
theorem install_externref_store_bounds_precondition_witness :
    (0 ≤ ((0 : Int), (65 : Nat)).1 ∧ ((0 : Int), (65 : Nat)).1 ≤ 255) ∧
    ((install_externref hostNeg).queries = [] ∧
      (install_externref hostNeg).stores = [(hostNeg.js_string_length, 0)]) :=
  ⟨install_externref_store_bounds_precondition.1 (hostOfString [65]) (by decide)
      ((0 : Int), (65 : Nat)) (by decide),
   install_externref_store_bounds_precondition.2 hostNeg (by decide)⟩

/-- C10: determinism in the host responses: two hosts that agree on the
length and on the char-at value at every queried index produce the same
trace — in particular the same sink buffer bytes and length argument. -/
theorem install_externref_deterministic (h1 h2 : Host)
    (hlen : h1.js_string_length = h2.js_string_length)
    (hchar : ∀ q ∈ (install_externref h1).queries,
      h1.js_string_charCodeAt q = h2.js_string_charCodeAt q) :
    install_externref h1 = install_externref h2 := by
  have hcl : copy_length h1 = copy_length h2 := by
    unfold copy_length; rw [hlen]
  have hc : ∀ i ∈ List.range (copy_length h2).toNat,
      h1.js_string_charCodeAt ((i : Int)) = h2.js_string_charCodeAt ((i : Int)) := by
    intro i hi
    exact hchar _ (by rw [queries_eq, hcl]; exact List.mem_map_of_mem _ hi)
  apply ExecTrace.ext
  · rw [queries_eq, queries_eq, hcl]
  · rw [stores_eq, stores_eq, hcl]
    have := List.map_congr_left (l := List.range (copy_length h2).toNat)
      (f := fun (i : Nat) => ((i : Int), lowByte (h1.js_string_charCodeAt ((i : Int)))))
      (g := fun (i : Nat) => ((i : Int), lowByte (h2.js_string_charCodeAt ((i : Int)))))
      (fun i hi => by simp only [hc i hi])
    rw [this]
  · rw [sink_eq, sink_eq, sinkBuffer_eq, sinkBuffer_eq, hcl]
    have := List.map_congr_left (l := List.range (copy_length h2).toNat)
      (f := fun (i : Nat) => lowByte (h1.js_string_charCodeAt ((i : Int))))
      (g := fun (i : Nat) => lowByte (h2.js_string_charCodeAt ((i : Int))))
      (fun i hi => by simp only [hc i hi])
    rw [this]

/-- A host agreeing with the string `[0x41, 0x42]` on the queried
indices but answering differently beyond them. -/
def hostShadow : Host :=
  { js_string_length := 2
  , js_string_charCodeAt := fun i => if i < 2 then 65 + i else 99 }

/-- C10 witness: `hostOfString [0x41, 0x42]` and `hostShadow` differ at
unqueried indices yet produce identical traces. -/
theorem install_externref_deterministic_witness :
    install_externref (hostOfString [65, 66]) = install_externref hostShadow :=
  install_externref_deterministic (hostOfString [65, 66]) hostShadow
    (by decide) (by decide)

end Star
